import Mathlib

/-!
# Verification of the Kb-Threshold-App core

Shallow embedding of the repetition segmentation engine
(`api/services/rep_detector.py`) and the anaerobic-threshold detector
(`api/services/ant_calculator.py`), with theorems checking the
natural-language specification against the code.

Floating-point values are modelled as rationals; Python lists as `List`;
`ValueError` raising constructors as `Except`-returning functions.
-/

/-- `np.mean` over a list of rationals (0 on the empty list). -/
def listMean (l : List ℚ) : ℚ := l.sum / (l.length : ℚ)

/-- `np.max` over a list of rationals (0 on the empty list; callers guard). -/
def listMax : List ℚ → ℚ
  | [] => 0
  | a :: l => l.foldl max a

/-- `np.min` over a list of rationals (0 on the empty list; callers guard). -/
def listMin : List ℚ → ℚ
  | [] => 0
  | a :: l => l.foldl min a

/-- `np.diff`: consecutive differences. -/
def diffList (l : List ℚ) : List ℚ := (l.zip l.tail).map fun p => p.2 - p.1

/-- `np.sign` on a rational. -/
def signQ (q : ℚ) : ℤ := if 0 < q then 1 else if q < 0 then -1 else 0

/-- `np.sum(np.abs(np.diff(np.sign(l))) > 0)`: number of adjacent sign changes. -/
def signChangeCount (l : List ℚ) : ℕ :=
  ((l.map signQ).zip (l.map signQ).tail).countP fun p => decide (p.1 ≠ p.2)

/-- `models/schemas.py` `MovementType`. -/
inductive MovementType where
  | snatch_left
  | snatch_right
  | swing_left
  | swing_right
  | two_arm_swing
deriving DecidableEq, Repr

/-- `models/schemas.py` `PositionSample`. -/
structure PositionSample where
  t : ℚ
  x : ℚ
  y : ℚ
  confidence : ℚ
deriving DecidableEq, Repr

instance : Inhabited PositionSample := ⟨⟨0, 0, 0, 1⟩⟩

/-- `rep_detector.py` `DetectedRep`. -/
structure DetectedRep where
  start_idx : ℕ
  end_idx : ℕ
  start_time : ℚ
  end_time : ℚ
  duration : ℚ
  peak_speed : ℚ
  vertical_displacement : ℚ
  is_valid : Bool
deriving DecidableEq, Repr

instance : Inhabited DetectedRep := ⟨⟨0, 0, 0, 0, 0, 0, 0, false⟩⟩

/-- `ant_calculator.py` `ANTResult`. -/
structure ANTResult where
  ant_reached : Bool
  ant_rep_index : Option ℕ
  ant_timestamp_seconds : Option ℚ
  baseline_speed : ℚ
  drop_percent_at_ant : Option ℚ
  smoothed_speeds : List ℚ
  threshold_flags : List Bool
deriving DecidableEq, Repr

/-- `ant_calculator.py` `ANTCalculator`: the configuration held by a
constructed instance. -/
structure ANTCalculator where
  baseline_reps : ℕ
  drop_threshold : ℚ
  smoothing_window : ℕ
  sustain_count : ℕ
deriving DecidableEq, Repr

/-- `ANTCalculator.__init__`: validates the configuration, raising
`ValueError` (modelled as `Except.error`) on the same conditions. -/
def ANTCalculator.init (baseline_reps : ℤ) (drop_threshold : ℚ)
    (smoothing_window sustain_count : ℤ) : Except String ANTCalculator :=
  if baseline_reps < 3 then .error "baseline_reps must be at least 3"
  else if ¬ (0 < drop_threshold ∧ drop_threshold < 1) then
    .error "drop_threshold must be between 0 and 1"
  else if smoothing_window < 1 then .error "smoothing_window must be at least 1"
  else if sustain_count < 1 then .error "sustain_count must be at least 1"
  else .ok ⟨baseline_reps.toNat, drop_threshold, smoothing_window.toNat,
            sustain_count.toNat⟩

/-- The constraints `ANTCalculator.__init__` enforces, on a constructed value. -/
def ANTCalculator.Valid (c : ANTCalculator) : Prop :=
  3 ≤ c.baseline_reps ∧ 0 < c.drop_threshold ∧ c.drop_threshold < 1 ∧
    1 ≤ c.smoothing_window ∧ 1 ≤ c.sustain_count

instance (c : ANTCalculator) : Decidable c.Valid := by
  unfold ANTCalculator.Valid; infer_instance

/-- `ANTCalculator._smooth`: centered moving average, asymmetric (trimmed)
windows at the edges, input returned unchanged when `window <= 1` or the
data is shorter than the window. -/
def ANTCalculator.smooth (data : List ℚ) (window : ℕ) : List ℚ :=
  if window ≤ 1 ∨ data.length < window then data
  else
    (List.range data.length).map fun i =>
      listMean ((data.drop (i - window / 2)).take
        (min data.length (i + window / 2 + 1) - (i - window / 2)))

/-- The loop body of `ANTCalculator._find_sustained_drop`:
`i` is the current position, `cc` the consecutive below-threshold count. -/
def ANTCalculator.find_sustained_drop_go (sustain_count : ℕ) :
    List Bool → ℕ → ℕ → Option ℕ
  | [], _, _ => none
  | is_below :: rest, i, cc =>
    if is_below then
      if sustain_count ≤ cc + 1 then some (i + 1 - sustain_count)
      else ANTCalculator.find_sustained_drop_go sustain_count rest (i + 1) (cc + 1)
    else ANTCalculator.find_sustained_drop_go sustain_count rest (i + 1) 0

/-- `ANTCalculator._find_sustained_drop`. -/
def ANTCalculator.find_sustained_drop (below_threshold : List Bool)
    (sustain_count : ℕ) : Option ℕ :=
  ANTCalculator.find_sustained_drop_go sustain_count below_threshold 0 0

/-- The `valid_reps` local of `ANTCalculator.calculate`. -/
def ANTCalculator.valid_reps (reps : List DetectedRep) : List DetectedRep :=
  reps.filter (·.is_valid)

/-- The `speeds` local of `ANTCalculator.calculate`. -/
def ANTCalculator.speeds (reps : List DetectedRep) : List ℚ :=
  (ANTCalculator.valid_reps reps).map (·.peak_speed)

/-- The `baseline_speed` local of `ANTCalculator.calculate`. -/
def ANTCalculator.baseline_speed (c : ANTCalculator) (reps : List DetectedRep) : ℚ :=
  listMean ((ANTCalculator.speeds reps).take c.baseline_reps)

/-- The `smoothed_speeds` local of `ANTCalculator.calculate`. -/
def ANTCalculator.smoothed_speeds (c : ANTCalculator) (reps : List DetectedRep) : List ℚ :=
  ANTCalculator.smooth (ANTCalculator.speeds reps) c.smoothing_window

/-- The `threshold_flags` local of `ANTCalculator.calculate`
(`smoothed_speeds < baseline_speed * (1 - drop_threshold)`, elementwise). -/
def ANTCalculator.threshold_flags (c : ANTCalculator) (reps : List DetectedRep) : List Bool :=
  (ANTCalculator.smoothed_speeds c reps).map fun v =>
    decide (v < ANTCalculator.baseline_speed c reps * (1 - c.drop_threshold))

/-- The "insufficient data" result returned by `ANTCalculator.calculate`. -/
def ANTCalculator.insufficient : ANTResult :=
  { ant_reached := false
    ant_rep_index := none
    ant_timestamp_seconds := none
    baseline_speed := 0
    drop_percent_at_ant := none
    smoothed_speeds := []
    threshold_flags := [] }

/-- `ANTCalculator.calculate`. -/
def ANTCalculator.calculate (c : ANTCalculator) (reps : List DetectedRep) : ANTResult :=
  if (ANTCalculator.valid_reps reps).length < c.baseline_reps + c.sustain_count then
    ANTCalculator.insufficient
  else if ANTCalculator.baseline_speed c reps ≤ 0 then
    { ant_reached := false
      ant_rep_index := none
      ant_timestamp_seconds := none
      baseline_speed := 0
      drop_percent_at_ant := none
      smoothed_speeds := ANTCalculator.speeds reps
      threshold_flags := List.replicate (ANTCalculator.speeds reps).length false }
  else
    match ANTCalculator.find_sustained_drop (ANTCalculator.threshold_flags c reps)
        c.sustain_count with
    | some i =>
      { ant_reached := true
        ant_rep_index := some i
        ant_timestamp_seconds :=
          some ((ANTCalculator.valid_reps reps).getD i default).start_time
        baseline_speed := ANTCalculator.baseline_speed c reps
        drop_percent_at_ant :=
          some ((ANTCalculator.baseline_speed c reps -
                 (ANTCalculator.smoothed_speeds c reps).getD i 0) /
                ANTCalculator.baseline_speed c reps)
        smoothed_speeds := ANTCalculator.smoothed_speeds c reps
        threshold_flags := ANTCalculator.threshold_flags c reps }
    | none =>
      { ant_reached := false
        ant_rep_index := none
        ant_timestamp_seconds := none
        baseline_speed := ANTCalculator.baseline_speed c reps
        drop_percent_at_ant := none
        smoothed_speeds := ANTCalculator.smoothed_speeds c reps
        threshold_flags := ANTCalculator.threshold_flags c reps }

/-! ## Supporting lemmas for the ANT engine -/

lemma listMean_singleton (x : ℚ) : listMean [x] = x := by
  simp [listMean]

lemma ANTCalculator.speeds_length (reps : List DetectedRep) :
    (ANTCalculator.speeds reps).length = (ANTCalculator.valid_reps reps).length := by
  simp [ANTCalculator.speeds]

lemma ANTCalculator.smooth_length (data : List ℚ) (window : ℕ) :
    (ANTCalculator.smooth data window).length = data.length := by
  unfold ANTCalculator.smooth
  split
  · rfl
  · simp

lemma ANTCalculator.smoothed_speeds_length (c : ANTCalculator) (reps : List DetectedRep) :
    (ANTCalculator.smoothed_speeds c reps).length = (ANTCalculator.speeds reps).length :=
  ANTCalculator.smooth_length ..

lemma ANTCalculator.threshold_flags_length (c : ANTCalculator) (reps : List DetectedRep) :
    (ANTCalculator.threshold_flags c reps).length = (ANTCalculator.smoothed_speeds c reps).length := by
  simp [ANTCalculator.threshold_flags]

/-- Under the two gates (enough valid reps, positive baseline),
`calculate` reduces to the sustained-drop case split. -/
lemma ANTCalculator.calculate_eq_of_gates (c : ANTCalculator) (reps : List DetectedRep)
    (hn : c.baseline_reps + c.sustain_count ≤ (ANTCalculator.valid_reps reps).length)
    (hb : 0 < ANTCalculator.baseline_speed c reps) :
    ANTCalculator.calculate c reps =
      match ANTCalculator.find_sustained_drop (ANTCalculator.threshold_flags c reps)
          c.sustain_count with
      | some i =>
        { ant_reached := true
          ant_rep_index := some i
          ant_timestamp_seconds :=
            some ((ANTCalculator.valid_reps reps).getD i default).start_time
          baseline_speed := ANTCalculator.baseline_speed c reps
          drop_percent_at_ant :=
            some ((ANTCalculator.baseline_speed c reps -
                   (ANTCalculator.smoothed_speeds c reps).getD i 0) /
                  ANTCalculator.baseline_speed c reps)
          smoothed_speeds := ANTCalculator.smoothed_speeds c reps
          threshold_flags := ANTCalculator.threshold_flags c reps }
      | none =>
        { ant_reached := false
          ant_rep_index := none
          ant_timestamp_seconds := none
          baseline_speed := ANTCalculator.baseline_speed c reps
          drop_percent_at_ant := none
          smoothed_speeds := ANTCalculator.smoothed_speeds c reps
          threshold_flags := ANTCalculator.threshold_flags c reps } := by
  unfold ANTCalculator.calculate
  rw [if_neg (by omega), if_neg (not_le.mpr hb)]

/-- `flags[j .. j+sc)` is a fully in-bounds window of `sc` consecutive `true`s. -/
def allTrueWindow (flags : List Bool) (sc j : ℕ) : Prop :=
  j + sc ≤ flags.length ∧ ∀ k < sc, flags.getD (j + k) false = true

lemma allTrueWindow_replicate {cc sc : ℕ} (hcs : cc < sc) (q : ℕ) :
    ¬ allTrueWindow (List.replicate cc true) sc q := by
  rintro ⟨hlen, -⟩
  simp only [List.length_replicate] at hlen
  omega

lemma replicate_append_true (cc : ℕ) (l : List Bool) :
    List.replicate cc true ++ true :: l = List.replicate (cc + 1) true ++ l := by
  rw [List.replicate_succ', List.append_assoc, List.singleton_append]

lemma allTrueWindow_skip_false {cc sc : ℕ} (hcs : cc < sc) (l : List Bool) :
    (∀ q ≤ cc, ¬ allTrueWindow (List.replicate cc true ++ false :: l) sc q) ∧
    (∀ q, allTrueWindow (List.replicate cc true ++ false :: l) sc (cc + 1 + q) ↔
      allTrueWindow l sc q) := by
  have hfalse : (List.replicate cc true ++ false :: l).getD cc false = false := by
    rw [List.getD_append_right _ _ _ _ (by simp), List.length_replicate, Nat.sub_self]
    rfl
  have hlen : (List.replicate cc true ++ false :: l).length = cc + 1 + l.length := by
    simp; omega
  constructor
  · rintro q hq ⟨-, hwin⟩
    have hk : cc - q < sc := by omega
    have hx := hwin (cc - q) hk
    rw [show q + (cc - q) = cc by omega, hfalse] at hx
    exact Bool.false_ne_true hx
  · intro q
    constructor
    · rintro ⟨h1, h2⟩
      rw [hlen] at h1
      refine ⟨by omega, fun k hk => ?_⟩
      have hx := h2 k hk
      rw [List.getD_append_right _ _ _ _ (by simp; omega), List.length_replicate,
        show cc + 1 + q + k - cc = (q + k) + 1 by omega, List.getD_cons_succ] at hx
      exact hx
    · rintro ⟨h1, h2⟩
      refine ⟨by rw [hlen]; omega, fun k hk => ?_⟩
      rw [List.getD_append_right _ _ _ _ (by simp; omega), List.length_replicate,
        show cc + 1 + q + k - cc = (q + k) + 1 by omega, List.getD_cons_succ]
      exact h2 k hk

/-- Invariant of the `_find_sustained_drop` scan: relative to the virtual list
`replicate cc true ++ rest` (the unbroken `true` suffix already seen, then the
remaining flags), the scan returns exactly the start of the first in-bounds
all-`true` window of length `sustain_count`. -/
lemma find_go_spec {sc : ℕ} (hsc : 1 ≤ sc) (rest : List Bool) :
    ∀ i cc : ℕ, cc < sc → cc ≤ i →
      (∀ j, ANTCalculator.find_sustained_drop_go sc rest i cc = some j →
        ∃ q, j = (i - cc) + q ∧
          allTrueWindow (List.replicate cc true ++ rest) sc q ∧
          ∀ q' < q, ¬ allTrueWindow (List.replicate cc true ++ rest) sc q') ∧
      (ANTCalculator.find_sustained_drop_go sc rest i cc = none →
        ∀ q, ¬ allTrueWindow (List.replicate cc true ++ rest) sc q) := by
  induction rest with
  | nil =>
    intro i cc hcs hci
    refine ⟨fun j hj => ?_, fun _ q => ?_⟩
    · simp [ANTCalculator.find_sustained_drop_go] at hj
    · rw [List.append_nil]
      exact allTrueWindow_replicate hcs q
  | cons b l ih =>
    intro i cc hcs hci
    cases b with
    | true =>
      by_cases htrig : sc ≤ cc + 1
      · have hcc1 : cc + 1 = sc := by omega
        have heq : ANTCalculator.find_sustained_drop_go sc (true :: l) i cc =
            some (i + 1 - sc) := by
          simp [ANTCalculator.find_sustained_drop_go, htrig]
        refine ⟨fun j hj => ?_, fun hn => ?_⟩
        · rw [heq] at hj
          obtain rfl := (Option.some.inj hj).symm
          refine ⟨0, by omega, ⟨?_, ?_⟩, by omega⟩
          · simp only [List.length_append, List.length_replicate, List.length_cons]
            omega
          · intro k hk
            rcases Nat.lt_or_ge k cc with hkc | hkc
            · rw [Nat.zero_add, List.getD_append _ _ _ _ (by simpa using hkc),
                List.getD_eq_getElem _ _ (by simpa using hkc), List.getElem_replicate]
            · have hkcc : k = cc := by omega
              subst hkcc
              rw [Nat.zero_add, List.getD_append_right _ _ _ _ (by simp),
                List.length_replicate, Nat.sub_self]
              rfl
        · rw [heq] at hn
          exact absurd hn (by simp)
      · have heq : ANTCalculator.find_sustained_drop_go sc (true :: l) i cc =
            ANTCalculator.find_sustained_drop_go sc l (i + 1) (cc + 1) := by
          simp [ANTCalculator.find_sustained_drop_go, htrig]
        have H := ih (i + 1) (cc + 1) (by omega) (by omega)
        rw [show i + 1 - (cc + 1) = i - cc by omega] at H
        rw [heq, replicate_append_true]
        exact H
    | false =>
      have heq : ANTCalculator.find_sustained_drop_go sc (false :: l) i cc =
          ANTCalculator.find_sustained_drop_go sc l (i + 1) 0 := by
        simp [ANTCalculator.find_sustained_drop_go]
      have H := ih (i + 1) 0 (by omega) (by omega)
      simp only [List.replicate_zero, List.nil_append, Nat.sub_zero] at H
      obtain ⟨Hskip, Hshift⟩ := allTrueWindow_skip_false hcs l
      rw [heq]
      refine ⟨fun j hj => ?_, fun hn q => ?_⟩
      · obtain ⟨q', hq1, hq2, hq3⟩ := H.1 j hj
        refine ⟨cc + 1 + q', by omega, (Hshift q').mpr hq2, ?_⟩
        intro q'' hq''
        rcases Nat.lt_or_ge cc q'' with hgt | hle
        · intro hw
          have hrw : q'' = cc + 1 + (q'' - (cc + 1)) := by omega
          rw [hrw] at hw
          exact hq3 _ (by omega) ((Hshift _).mp hw)
        · exact Hskip q'' hle
      · rcases Nat.lt_or_ge cc q with hgt | hle
        · intro hw
          have hrw : q = cc + 1 + (q - (cc + 1)) := by omega
          rw [hrw] at hw
          exact H.2 hn _ ((Hshift _).mp hw)
        · exact Hskip q hle

/-- `_find_sustained_drop` returns exactly the start index of the first run of
`sustain_count` or more consecutive `true` flags (`none` when there is none). -/
lemma find_sustained_drop_spec (flags : List Bool) {sc : ℕ} (hsc : 1 ≤ sc) :
    (∀ j, ANTCalculator.find_sustained_drop flags sc = some j →
      allTrueWindow flags sc j ∧ ∀ j' < j, ¬ allTrueWindow flags sc j') ∧
    (ANTCalculator.find_sustained_drop flags sc = none →
      ∀ j, ¬ allTrueWindow flags sc j) := by
  have H := find_go_spec hsc flags 0 0 hsc (Nat.le_refl 0)
  simp only [List.replicate_zero, List.nil_append, Nat.sub_zero, Nat.zero_add] at H
  refine ⟨fun j hj => ?_, H.2⟩
  obtain ⟨q, hq1, hq2, hq3⟩ := H.1 j hj
  subst hq1
  exact ⟨hq2, hq3⟩

/-! ## Concrete inputs used by witnesses and counterexamples -/

/-- A valid rep with unit spacing, used to build concrete scenarios. -/
def mkValidRep (i : ℕ) (v : ℚ) : DetectedRep := ⟨i, i + 1, i, i + 1, 1, v, 1, true⟩

/-- The spec's sustained-drop scenario configuration
(`drop_threshold=0.20`, `sustain_count=2`, `smoothing_window=1`). -/
def c1Cfg : ANTCalculator := ⟨5, 1/5, 1, 2⟩

/-- 5 valid reps at `peak_speed=1.0` followed by 3 at `peak_speed=0.5`. -/
def c1Reps : List DetectedRep :=
  [mkValidRep 0 1, mkValidRep 1 1, mkValidRep 2 1, mkValidRep 3 1, mkValidRep 4 1,
   mkValidRep 5 (1/2), mkValidRep 6 (1/2), mkValidRep 7 (1/2)]

/-- The spec's insufficient-data boundary configuration. -/
def c2Cfg : ANTCalculator := ⟨5, 1/5, 3, 2⟩

/-- Exactly 6 valid reps. -/
def c2Reps : List DetectedRep :=
  [mkValidRep 0 1, mkValidRep 1 1, mkValidRep 2 1, mkValidRep 3 1, mkValidRep 4 1,
   mkValidRep 5 1]

/-- Configuration whose smoothing window (7) exceeds the data length (4). -/
def c5Cfg : ANTCalculator := ⟨3, 1/5, 7, 1⟩

/-- 4 valid reps, fewer than `c5Cfg`'s smoothing window. -/
def c5Reps : List DetectedRep :=
  [mkValidRep 0 1, mkValidRep 1 2, mkValidRep 2 1, mkValidRep 3 1]

/-! ## Claims about the ANT engine -/

/-- C8: constructing an `ANTCalculator` raises a `ValueError` iff at least one
of `baseline_reps >= 3`, `0 < drop_threshold < 1`, `smoothing_window >= 1`,
`sustain_count >= 1` is violated; when all hold, construction succeeds with
exactly the given configuration, and the constructed configuration satisfies
every constraint (so no configuration error is deferred to analysis time). -/
theorem claim_C8 (br : ℤ) (dt : ℚ) (w sc : ℤ) :
    ((∃ e, ANTCalculator.init br dt w sc = Except.error e) ↔
      ¬ (3 ≤ br ∧ 0 < dt ∧ dt < 1 ∧ 1 ≤ w ∧ 1 ≤ sc)) ∧
    ((3 ≤ br ∧ 0 < dt ∧ dt < 1 ∧ 1 ≤ w ∧ 1 ≤ sc) →
      ANTCalculator.init br dt w sc =
        Except.ok ⟨br.toNat, dt, w.toNat, sc.toNat⟩ ∧
      ANTCalculator.Valid ⟨br.toNat, dt, w.toNat, sc.toNat⟩) := by
  have hok : ∀ hP : 3 ≤ br ∧ 0 < dt ∧ dt < 1 ∧ 1 ≤ w ∧ 1 ≤ sc,
      ANTCalculator.init br dt w sc =
        Except.ok ⟨br.toNat, dt, w.toNat, sc.toNat⟩ := by
    rintro ⟨hbr, hdt0, hdt1, hw, hsc⟩
    unfold ANTCalculator.init
    rw [if_neg (by omega), if_neg (not_not_intro ⟨hdt0, hdt1⟩), if_neg (by omega),
      if_neg (by omega)]
  constructor
  · constructor
    · rintro ⟨e, he⟩ hP
      rw [hok hP] at he
      exact Except.noConfusion he
    · intro hnP
      unfold ANTCalculator.init
      by_cases h1 : br < 3
      · rw [if_pos h1]; exact ⟨_, rfl⟩
      · rw [if_neg h1]
        by_cases h2 : 0 < dt ∧ dt < 1
        · rw [if_neg (not_not_intro h2)]
          by_cases h3 : w < 1
          · rw [if_pos h3]; exact ⟨_, rfl⟩
          · rw [if_neg h3]
            by_cases h4 : sc < 1
            · rw [if_pos h4]; exact ⟨_, rfl⟩
            · exact absurd ⟨by omega, h2.1, h2.2, by omega, by omega⟩ hnP
        · rw [if_pos h2]; exact ⟨_, rfl⟩
  · intro hP
    refine ⟨hok hP, ?_, hP.2.1, hP.2.2.1, ?_, ?_⟩
    · show 3 ≤ br.toNat
      omega
    · show 1 ≤ w.toNat
      omega
    · show 1 ≤ sc.toNat
      omega

/-- C8 witness: the default configuration constructs successfully and is valid. -/
theorem claim_C8_witness :
    ANTCalculator.init 5 (1/5) 3 2 = Except.ok ⟨5, 1/5, 3, 2⟩ ∧
    ANTCalculator.Valid ⟨5, 1/5, 3, 2⟩ :=
  (claim_C8 5 (1/5) 3 2).2 ⟨by omega, by norm_num, by norm_num, by omega, by omega⟩

/-- C2: `calculate` returns the insufficient-data result (all optional fields
unset, `ant_reached=False`, `baseline_speed=0`, both arrays empty) iff the
number of valid reps is strictly below `baseline_reps + sustain_count`. -/
theorem claim_C2 (c : ANTCalculator) (reps : List DetectedRep)
    (hc : 3 ≤ c.baseline_reps) :
    ANTCalculator.calculate c reps =
        { ant_reached := false
          ant_rep_index := none
          ant_timestamp_seconds := none
          baseline_speed := 0
          drop_percent_at_ant := none
          smoothed_speeds := []
          threshold_flags := [] } ↔
      (ANTCalculator.valid_reps reps).length < c.baseline_reps + c.sustain_count := by
  constructor
  · intro h
    by_contra hge
    push_neg at hge
    unfold ANTCalculator.calculate at h
    rw [if_neg (not_lt.mpr hge)] at h
    have hlen : (ANTCalculator.speeds reps).length =
        (ANTCalculator.valid_reps reps).length := ANTCalculator.speeds_length reps
    split_ifs at h with hb
    · rw [ANTResult.mk.injEq] at h
      obtain ⟨-, -, -, -, -, hsm, -⟩ := h
      have h0 : (ANTCalculator.speeds reps).length = 0 := by rw [hsm]; rfl
      omega
    · rcases hfs : ANTCalculator.find_sustained_drop
          (ANTCalculator.threshold_flags c reps) c.sustain_count with _ | i <;>
        rw [hfs] at h
      · rw [ANTResult.mk.injEq] at h
        obtain ⟨-, -, -, -, -, hsm, -⟩ := h
        have h0 : (ANTCalculator.smoothed_speeds c reps).length = 0 := by rw [hsm]; rfl
        rw [ANTCalculator.smoothed_speeds_length] at h0
        omega
      · rw [ANTResult.mk.injEq] at h
        exact Bool.noConfusion h.1
  · intro hlt
    unfold ANTCalculator.calculate
    rw [if_pos hlt]
    rfl

/-- C2 witness: with `baseline_reps=5`, `sustain_count=2` and exactly 6 valid
reps, `calculate` returns the insufficient-data result. -/
theorem claim_C2_witness :
    ANTCalculator.calculate c2Cfg c2Reps =
      { ant_reached := false
        ant_rep_index := none
        ant_timestamp_seconds := none
        baseline_speed := 0
        drop_percent_at_ant := none
        smoothed_speeds := []
        threshold_flags := [] } :=
  (claim_C2 c2Cfg c2Reps (by decide)).mpr (by decide)

lemma ANTCalculator.smooth_getD_of_le {data : List ℚ} {window : ℕ}
    (hw : 1 < window) (hlen : window ≤ data.length) {i : ℕ} (hi : i < data.length) :
    (ANTCalculator.smooth data window).getD i 0 =
      listMean ((data.drop (i - window / 2)).take
        (min data.length (i + window / 2 + 1) - (i - window / 2))) := by
  unfold ANTCalculator.smooth
  rw [if_neg (by push_neg; exact ⟨hw, hlen⟩)]
  rw [List.getD_eq_getElem _ _ (by simpa using hi)]
  rw [List.getElem_map, List.getElem_range]

lemma ANTCalculator.smooth_getD_of_window_le_one {data : List ℚ} {window : ℕ}
    (hw : window ≤ 1) {i : ℕ} (hi : i < data.length) :
    (ANTCalculator.smooth data window).getD i 0 =
      listMean ((data.drop (i - window / 2)).take
        (min data.length (i + window / 2 + 1) - (i - window / 2))) := by
  unfold ANTCalculator.smooth
  rw [if_pos (Or.inl hw)]
  have hv : window / 2 = 0 := by omega
  rw [hv, Nat.sub_zero, Nat.add_zero]
  have hmin : min data.length (i + 1) - i = 1 := by omega
  rw [hmin, List.drop_eq_getElem_cons hi, List.take_succ_cons, List.take_zero,
    listMean_singleton]
  exact List.getD_eq_getElem _ _ hi

/-- Under the gates, the `smoothed_speeds` array of the result is the
`_smooth` of the valid-rep peak speeds. -/
lemma ANTCalculator.calculate_smoothed (c : ANTCalculator) (reps : List DetectedRep)
    (hn : c.baseline_reps + c.sustain_count ≤ (ANTCalculator.valid_reps reps).length)
    (hb : 0 < ANTCalculator.baseline_speed c reps) :
    (ANTCalculator.calculate c reps).smoothed_speeds =
      ANTCalculator.smoothed_speeds c reps := by
  rw [ANTCalculator.calculate_eq_of_gates c reps hn hb]
  split <;> rfl

/-- C5 (amended): under the gates, when the valid-rep count `n` is at least the
smoothing window `w` (or `w <= 1`), every entry of `smoothed_speeds` is the
trimmed centered moving average `mean(speeds[max(0, i - w/2) .. min(n, i + w/2 + 1)))`;
when `n < w` (the case the original claim got wrong), `_smooth` is skipped and
`smoothed_speeds` is the raw peak-speed sequence unchanged. -/
theorem claim_C5 (c : ANTCalculator) (reps : List DetectedRep)
    (hn : c.baseline_reps + c.sustain_count ≤ (ANTCalculator.valid_reps reps).length)
    (hb : 0 < ANTCalculator.baseline_speed c reps) :
    (∀ i < (ANTCalculator.speeds reps).length,
      (c.smoothing_window ≤ 1 ∨ c.smoothing_window ≤ (ANTCalculator.speeds reps).length) →
      (ANTCalculator.calculate c reps).smoothed_speeds.getD i 0 =
        listMean (((ANTCalculator.speeds reps).drop (i - c.smoothing_window / 2)).take
          (min (ANTCalculator.speeds reps).length (i + c.smoothing_window / 2 + 1) -
            (i - c.smoothing_window / 2)))) ∧
    ((ANTCalculator.speeds reps).length < c.smoothing_window →
      (ANTCalculator.calculate c reps).smoothed_speeds = ANTCalculator.speeds reps) := by
  rw [ANTCalculator.calculate_smoothed c reps hn hb]
  constructor
  · intro i hi hcase
    by_cases hw1 : c.smoothing_window ≤ 1
    · exact ANTCalculator.smooth_getD_of_window_le_one hw1 hi
    · rcases hcase with hc1 | hc2
      · exact absurd hc1 hw1
      · exact ANTCalculator.smooth_getD_of_le (by omega) hc2 hi
  · intro hlt
    unfold ANTCalculator.smoothed_speeds ANTCalculator.smooth
    rw [if_pos (Or.inr hlt)]

/-- C5 counterexample: with `baseline_reps=3`, `sustain_count=1`,
`smoothing_window=7` and 4 valid reps of speeds `[1, 2, 1, 1]`, both gates
pass, yet `smoothed_speeds[0]` is the raw value `1`, not the trimmed-window
mean `5/4` the claim requires for every `i` "including when n is smaller
than w". -/
theorem claim_C5_counterexample :
    c5Cfg.baseline_reps + c5Cfg.sustain_count ≤ (ANTCalculator.valid_reps c5Reps).length ∧
    0 < ANTCalculator.baseline_speed c5Cfg c5Reps ∧
    (0 : ℕ) < (ANTCalculator.speeds c5Reps).length ∧
    ¬ ((ANTCalculator.calculate c5Cfg c5Reps).smoothed_speeds.getD 0 0 =
      listMean (((ANTCalculator.speeds c5Reps).drop (0 - c5Cfg.smoothing_window / 2)).take
        (min (ANTCalculator.speeds c5Reps).length (0 + c5Cfg.smoothing_window / 2 + 1) -
          (0 - c5Cfg.smoothing_window / 2)))) := by
  refine ⟨by decide, ?_, by decide, ?_⟩
  · norm_num [ANTCalculator.baseline_speed, ANTCalculator.speeds,
      ANTCalculator.valid_reps, c5Cfg, c5Reps, mkValidRep, listMean, List.filter]
  · norm_num [ANTCalculator.calculate, ANTCalculator.valid_reps, ANTCalculator.speeds,
      ANTCalculator.baseline_speed, ANTCalculator.smoothed_speeds, ANTCalculator.smooth,
      ANTCalculator.threshold_flags, ANTCalculator.find_sustained_drop,
      ANTCalculator.find_sustained_drop_go, c5Cfg, c5Reps, mkValidRep, listMean,
      List.filter]

/-- C5 witness (for the amended claim): at the counterexample input the
`n < w` branch applies, so `smoothed_speeds` is the raw speed sequence. -/
theorem claim_C5_witness :
    (ANTCalculator.calculate c5Cfg c5Reps).smoothed_speeds =
      ANTCalculator.speeds c5Reps :=
  (claim_C5 c5Cfg c5Reps (by decide) (by
    norm_num [ANTCalculator.baseline_speed, ANTCalculator.speeds,
      ANTCalculator.valid_reps, c5Cfg, c5Reps, mkValidRep, listMean,
      List.filter])).2 (by decide)

/-- C1: past the gates, `ant_rep_index` is exactly the start (not the end) of
the first run of `sustain_count` or more consecutive `true` threshold flags;
when it is `some j`, `ant_reached` is set, `ant_timestamp_seconds` is the
`j`-th valid rep's `start_time` and `drop_percent_at_ant` is
`(baseline_speed - smoothed_speeds[j]) / baseline_speed`; when no such run
exists, `ant_reached` is `false` and both optional outputs are unset. -/
theorem claim_C1 (c : ANTCalculator) (reps : List DetectedRep)
    (hsc : 1 ≤ c.sustain_count)
    (hn : c.baseline_reps + c.sustain_count ≤ (ANTCalculator.valid_reps reps).length)
    (hb : 0 < ANTCalculator.baseline_speed c reps) :
    (∀ j, (ANTCalculator.calculate c reps).ant_rep_index = some j →
      (ANTCalculator.calculate c reps).ant_reached = true ∧
      allTrueWindow (ANTCalculator.calculate c reps).threshold_flags c.sustain_count j ∧
      (∀ j' < j,
        ¬ allTrueWindow (ANTCalculator.calculate c reps).threshold_flags c.sustain_count j') ∧
      (ANTCalculator.calculate c reps).ant_timestamp_seconds =
        some (((ANTCalculator.valid_reps reps).getD j default).start_time) ∧
      (ANTCalculator.calculate c reps).drop_percent_at_ant =
        some ((ANTCalculator.baseline_speed c reps -
               (ANTCalculator.smoothed_speeds c reps).getD j 0) /
              ANTCalculator.baseline_speed c reps)) ∧
    ((ANTCalculator.calculate c reps).ant_rep_index = none →
      (ANTCalculator.calculate c reps).ant_reached = false ∧
      (∀ j, ¬ allTrueWindow (ANTCalculator.calculate c reps).threshold_flags
        c.sustain_count j) ∧
      (ANTCalculator.calculate c reps).ant_timestamp_seconds = none ∧
      (ANTCalculator.calculate c reps).drop_percent_at_ant = none) := by
  have hcalc := ANTCalculator.calculate_eq_of_gates c reps hn hb
  obtain ⟨Hsome, Hnone⟩ :=
    find_sustained_drop_spec (ANTCalculator.threshold_flags c reps) hsc
  rcases hfs : ANTCalculator.find_sustained_drop (ANTCalculator.threshold_flags c reps)
      c.sustain_count with _ | i <;> rw [hfs] at hcalc <;> rw [hcalc]
  · refine ⟨fun j hj => absurd hj (by simp), fun _ => ⟨rfl, Hnone hfs, rfl, rfl⟩⟩
  · refine ⟨fun j hj => ?_, fun hcontra => absurd hcontra (by simp)⟩
    obtain rfl : i = j := Option.some.inj hj
    obtain ⟨hw, hmin⟩ := Hsome i hfs
    exact ⟨rfl, hw, hmin, rfl, rfl⟩

/-- C1 witness: the spec's sustained-drop scenario — 5 valid reps at speed 1
then 3 at speed 0.5, `drop_threshold=0.20`, `sustain_count=2`,
`smoothing_window=1` — yields `ant_reached`, `ant_rep_index=5`,
`ant_timestamp_seconds` the 6th valid rep's start time, and
`drop_percent_at_ant=0.5`. -/
theorem claim_C1_witness :
    (ANTCalculator.calculate c1Cfg c1Reps).ant_reached = true ∧
    (ANTCalculator.calculate c1Cfg c1Reps).ant_rep_index = some 5 ∧
    (ANTCalculator.calculate c1Cfg c1Reps).ant_timestamp_seconds = some 5 ∧
    (ANTCalculator.calculate c1Cfg c1Reps).drop_percent_at_ant = some (1/2) := by
  have hidx : (ANTCalculator.calculate c1Cfg c1Reps).ant_rep_index = some 5 := by
    norm_num [ANTCalculator.calculate, ANTCalculator.valid_reps, ANTCalculator.speeds,
      ANTCalculator.baseline_speed, ANTCalculator.smoothed_speeds, ANTCalculator.smooth,
      ANTCalculator.threshold_flags, ANTCalculator.find_sustained_drop,
      ANTCalculator.find_sustained_drop_go, c1Cfg, c1Reps, mkValidRep, listMean,
      List.filter]
  have h := (claim_C1 c1Cfg c1Reps (by decide) (by decide) (by
    norm_num [ANTCalculator.baseline_speed, ANTCalculator.speeds,
      ANTCalculator.valid_reps, c1Cfg, c1Reps, mkValidRep, listMean,
      List.filter])).1 5 hidx
  refine ⟨h.1, hidx, ?_, ?_⟩
  · rw [h.2.2.2.1]
    norm_num [ANTCalculator.valid_reps, c1Reps, mkValidRep, List.filter]
  · rw [h.2.2.2.2]
    norm_num [ANTCalculator.baseline_speed, ANTCalculator.smoothed_speeds,
      ANTCalculator.smooth, ANTCalculator.speeds, ANTCalculator.valid_reps,
      c1Cfg, c1Reps, mkValidRep, listMean, List.filter]

/-- C10 (implicit invariant): whenever `calculate` reports `ant_reached`, the
baseline is strictly positive, `ant_rep_index` is a valid index into the
valid-reps sequence, the smoothed speed there is strictly below
`baseline * (1 - drop_threshold)`, and therefore `drop_percent_at_ant`
strictly exceeds `drop_threshold`. -/
theorem claim_C10 (c : ANTCalculator) (reps : List DetectedRep)
    (hsc : 1 ≤ c.sustain_count)
    (h : (ANTCalculator.calculate c reps).ant_reached = true) :
    0 < (ANTCalculator.calculate c reps).baseline_speed ∧
    ∃ i, (ANTCalculator.calculate c reps).ant_rep_index = some i ∧
      i < (ANTCalculator.valid_reps reps).length ∧
      (ANTCalculator.calculate c reps).smoothed_speeds.getD i 0 <
        (ANTCalculator.calculate c reps).baseline_speed * (1 - c.drop_threshold) ∧
      ∀ dp, (ANTCalculator.calculate c reps).drop_percent_at_ant = some dp →
        c.drop_threshold < dp := by
  by_cases hn : (ANTCalculator.valid_reps reps).length <
      c.baseline_reps + c.sustain_count
  · exfalso
    unfold ANTCalculator.calculate at h
    rw [if_pos hn] at h
    exact Bool.noConfusion h
  push_neg at hn
  by_cases hb : ANTCalculator.baseline_speed c reps ≤ 0
  · exfalso
    unfold ANTCalculator.calculate at h
    rw [if_neg (not_lt.mpr hn), if_pos hb] at h
    exact Bool.noConfusion h
  push_neg at hb
  have hcalc := ANTCalculator.calculate_eq_of_gates c reps hn hb
  obtain ⟨Hsome, -⟩ :=
    find_sustained_drop_spec (ANTCalculator.threshold_flags c reps) hsc
  rcases hfs : ANTCalculator.find_sustained_drop (ANTCalculator.threshold_flags c reps)
      c.sustain_count with _ | i <;> rw [hfs] at hcalc
  · rw [hcalc] at h
    exact Bool.noConfusion h
  · obtain ⟨⟨hwlen, hwall⟩, -⟩ := Hsome i hfs
    have hflen : (ANTCalculator.threshold_flags c reps).length =
        (ANTCalculator.valid_reps reps).length := by
      rw [ANTCalculator.threshold_flags_length, ANTCalculator.smoothed_speeds_length,
        ANTCalculator.speeds_length]
    have hilt : i < (ANTCalculator.valid_reps reps).length := by omega
    have hilt2 : i < (ANTCalculator.smoothed_speeds c reps).length := by
      rw [ANTCalculator.smoothed_speeds_length, ANTCalculator.speeds_length]
      exact hilt
    have hflag := hwall 0 (by omega)
    rw [Nat.add_zero] at hflag
    have hsm : (ANTCalculator.smoothed_speeds c reps).getD i 0 <
        ANTCalculator.baseline_speed c reps * (1 - c.drop_threshold) := by
      unfold ANTCalculator.threshold_flags at hflag
      rw [List.getD_eq_getElem _ _ (by simpa using hilt2), List.getElem_map] at hflag
      rw [List.getD_eq_getElem _ _ hilt2]
      exact of_decide_eq_true hflag
    rw [hcalc]
    refine ⟨hb, i, rfl, hilt, hsm, ?_⟩
    intro dp hdp
    obtain rfl : _ = dp := Option.some.inj hdp
    rw [lt_div_iff₀ hb]
    nlinarith [hsm]

/-- C10 witness: the invariant instantiated at the sustained-drop scenario. -/
theorem claim_C10_witness :
    0 < (ANTCalculator.calculate c1Cfg c1Reps).baseline_speed ∧
    ∃ i, (ANTCalculator.calculate c1Cfg c1Reps).ant_rep_index = some i ∧
      i < (ANTCalculator.valid_reps c1Reps).length ∧
      (ANTCalculator.calculate c1Cfg c1Reps).smoothed_speeds.getD i 0 <
        (ANTCalculator.calculate c1Cfg c1Reps).baseline_speed * (1 - c1Cfg.drop_threshold) ∧
      ∀ dp, (ANTCalculator.calculate c1Cfg c1Reps).drop_percent_at_ant = some dp →
        c1Cfg.drop_threshold < dp :=
  claim_C10 c1Cfg c1Reps (by decide) (by
    norm_num [ANTCalculator.calculate, ANTCalculator.valid_reps, ANTCalculator.speeds,
      ANTCalculator.baseline_speed, ANTCalculator.smoothed_speeds, ANTCalculator.smooth,
      ANTCalculator.threshold_flags, ANTCalculator.find_sustained_drop,
      ANTCalculator.find_sustained_drop_go, c1Cfg, c1Reps, mkValidRep, listMean,
      List.filter])

/-! ## The rep segmentation engine (`rep_detector.py`) -/

/-- `RepDetector`: movement type plus minimum confidence. -/
structure RepDetector where
  movement_type : MovementType
  min_confidence : ℚ
deriving DecidableEq, Repr

/-- `MIN_VERTICAL_DISPLACEMENT_SWING`. -/
def RepDetector.MIN_VERTICAL_DISPLACEMENT_SWING : ℚ := 15/100

/-- `MIN_VERTICAL_DISPLACEMENT_SNATCH`. -/
def RepDetector.MIN_VERTICAL_DISPLACEMENT_SNATCH : ℚ := 25/100

/-- `MAX_REP_DURATION`. -/
def RepDetector.MAX_REP_DURATION : ℚ := 4

/-- `MIN_REP_DURATION`. -/
def RepDetector.MIN_REP_DURATION : ℚ := 4/10

/-- `VELOCITY_SMOOTHING_WINDOW`. -/
def RepDetector.VELOCITY_SMOOTHING_WINDOW : ℕ := 3

/-- `MIN_SAMPLES_BETWEEN_PEAKS`. -/
def RepDetector.MIN_SAMPLES_BETWEEN_PEAKS : ℕ := 5

/-- The `min_vertical_displacement` attribute set in `RepDetector.__init__`:
snatch movements use the larger threshold, all others the swing threshold. -/
def RepDetector.min_vertical_displacement (d : RepDetector) : ℚ :=
  if d.movement_type = MovementType.snatch_left ∨
      d.movement_type = MovementType.snatch_right then
    RepDetector.MIN_VERTICAL_DISPLACEMENT_SNATCH
  else
    RepDetector.MIN_VERTICAL_DISPLACEMENT_SWING

/-- `RepDetector._smooth_signal`: moving average with edge-replicated padding
(`np.pad(..., mode='edge')` then `np.convolve(..., 'valid')`), length-preserving;
the input is returned unchanged when `window <= 1` or the signal is shorter
than the window. -/
def RepDetector.smooth_signal (signal : List ℚ) (window : ℕ) : List ℚ :=
  if window ≤ 1 ∨ signal.length < window then signal
  else
    let padded := List.replicate (window / 2) (signal.headD 0) ++ signal ++
      List.replicate (window - 1 - window / 2) (signal.getLastD 0)
    (List.range signal.length).map fun i => listMean ((padded.drop i).take window)

/-- One iteration of the `_find_peaks` scan at index `i`; `acc` is the peak
list accumulated so far, most recent first. -/
def RepDetector.find_peaks_step (signal : List ℚ) (min_distance : ℕ)
    (acc : List ℕ) (i : ℕ) : List ℕ :=
  if signal.getD (i - 1) 0 < signal.getD i 0 ∧ signal.getD (i + 1) 0 < signal.getD i 0 then
    match acc with
    | [] => [i]
    | last :: rest =>
      if min_distance ≤ i - last then i :: last :: rest
      else if signal.getD last 0 < signal.getD i 0 then i :: rest
      else last :: rest
  else acc

/-- `RepDetector._find_peaks`: greedy local-maxima scan over indices
`1 .. len-2` with minimum spacing and replace-if-higher tie-breaking. -/
def RepDetector.find_peaks (signal : List ℚ) (min_distance : ℕ) : List ℕ :=
  ((List.range' 1 (signal.length - 2)).foldl
    (RepDetector.find_peaks_step signal min_distance) []).reverse

/-- `RepDetector._calculate_peak_speed` over the rep span's times and raw
vertical positions: absolute finite-difference velocities with non-positive
time deltas floored to `0.001`, smoothed (window 3) when at least 3 values,
then the maximum. -/
def RepDetector.calculate_peak_speed (times y_positions : List ℚ) : ℚ :=
  if times.length < 2 then 0
  else
    let dt := (diffList times).map fun d => if 0 < d then d else 1/1000
    let velocities := ((diffList y_positions).zip dt).map fun p => |p.1 / p.2|
    let velocities :=
      if RepDetector.VELOCITY_SMOOTHING_WINDOW ≤ velocities.length then
        RepDetector.smooth_signal velocities RepDetector.VELOCITY_SMOOTHING_WINDOW
      else velocities
    if 0 < velocities.length then listMax velocities else 0

/-- `RepDetector._validate_rep`: duration bounds, displacement minimum, and
the arc-smoothness (sign-change) check. -/
def RepDetector.validate_rep (d : RepDetector) (duration vertical_displacement : ℚ)
    (y_segment : List ℚ) : Bool :=
  if duration < RepDetector.MIN_REP_DURATION ∨ RepDetector.MAX_REP_DURATION < duration then
    false
  else if vertical_displacement < d.min_vertical_displacement then false
  else if y_segment.length < 5 then true
  else
    decide (signChangeCount
      (if 3 ≤ (diffList y_segment).length
        then RepDetector.smooth_signal (diffList y_segment) 3
        else diffList y_segment) ≤ max 8 (y_segment.length / 3))

/-- The `DetectedRep` built by `RepDetector._segment_reps` for the peak pair
`(start_idx, end_idx)`. -/
def RepDetector.make_rep (d : RepDetector) (times y_raw : List ℚ)
    (start_idx end_idx : ℕ) : DetectedRep :=
  { start_idx := start_idx
    end_idx := end_idx
    start_time := times.getD start_idx 0
    end_time := times.getD end_idx 0
    duration := times.getD end_idx 0 - times.getD start_idx 0
    peak_speed := RepDetector.calculate_peak_speed
      ((times.drop start_idx).take (end_idx + 1 - start_idx))
      ((y_raw.drop start_idx).take (end_idx + 1 - start_idx))
    vertical_displacement :=
      listMax ((y_raw.drop start_idx).take (end_idx + 1 - start_idx)) -
        listMin ((y_raw.drop start_idx).take (end_idx + 1 - start_idx))
    is_valid := RepDetector.validate_rep d
      (times.getD end_idx 0 - times.getD start_idx 0)
      (listMax ((y_raw.drop start_idx).take (end_idx + 1 - start_idx)) -
        listMin ((y_raw.drop start_idx).take (end_idx + 1 - start_idx)))
      ((y_raw.drop start_idx).take (end_idx + 1 - start_idx)) }

/-- `RepDetector._segment_reps`: the loop over consecutive peak pairs; spans
with fewer than 2 samples are skipped. -/
def RepDetector.segment_reps (d : RepDetector) (times y_raw : List ℚ) :
    List ℕ → List DetectedRep
  | p1 :: p2 :: rest =>
    if ((y_raw.drop p1).take (p2 + 1 - p1)).length < 2 then
      RepDetector.segment_reps d times y_raw (p2 :: rest)
    else
      RepDetector.make_rep d times y_raw p1 p2 ::
        RepDetector.segment_reps d times y_raw (p2 :: rest)
  | _ => []

/-- The body of `RepDetector.detect_reps` from the confidence filter onward,
operating on the already-filtered `valid_samples`. -/
def RepDetector.detect_reps_filtered (d : RepDetector)
    (valid_samples : List PositionSample) : List DetectedRep :=
  if valid_samples.length < RepDetector.MIN_SAMPLES_BETWEEN_PEAKS * 2 then []
  else if (RepDetector.find_peaks
        ((RepDetector.smooth_signal (valid_samples.map (·.y))
          RepDetector.VELOCITY_SMOOTHING_WINDOW).map fun v => -v)
        RepDetector.MIN_SAMPLES_BETWEEN_PEAKS).length < 2 ∧
      (RepDetector.find_peaks
        (RepDetector.smooth_signal (valid_samples.map (·.y))
          RepDetector.VELOCITY_SMOOTHING_WINDOW)
        RepDetector.MIN_SAMPLES_BETWEEN_PEAKS).length < 2 then []
  else RepDetector.segment_reps d (valid_samples.map (·.t)) (valid_samples.map (·.y))
    (RepDetector.find_peaks
      ((RepDetector.smooth_signal (valid_samples.map (·.y))
        RepDetector.VELOCITY_SMOOTHING_WINDOW).map fun v => -v)
      RepDetector.MIN_SAMPLES_BETWEEN_PEAKS)

/-- `RepDetector.detect_reps`: size guard, confidence filter, then the
filtered-samples body. -/
def RepDetector.detect_reps (d : RepDetector) (samples : List PositionSample) :
    List DetectedRep :=
  if samples.length < RepDetector.MIN_SAMPLES_BETWEEN_PEAKS * 2 then []
  else RepDetector.detect_reps_filtered d
    (samples.filter fun s => decide (d.min_confidence ≤ s.confidence))

/-! ## The streaming rep segmenter (`StreamingRepDetector`) -/

/-- The mutable state of a `StreamingRepDetector` instance. -/
structure StreamingRepDetector where
  movement_type : MovementType
  buffer_seconds : ℚ
  min_confidence : ℚ
  samples : List PositionSample
  detected_reps : List DetectedRep
  last_processed_idx : ℕ
deriving DecidableEq, Repr

/-- `StreamingRepDetector.__init__`. -/
def StreamingRepDetector.init (movement_type : MovementType)
    (buffer_seconds min_confidence : ℚ) : StreamingRepDetector :=
  ⟨movement_type, buffer_seconds, min_confidence, [], [], 0⟩

/-- The `cutoff_time` local of `add_sample`: latest time minus the buffer. -/
def StreamingRepDetector.cutoff_time (st : StreamingRepDetector)
    (sample : PositionSample) : ℚ :=
  ((st.samples ++ [sample]).getLastD default).t - st.buffer_seconds

/-- The buffer after `add_sample`'s append-then-evict
(`while samples and samples[0].t < cutoff_time: samples.pop(0)`). -/
def StreamingRepDetector.buffer_after (st : StreamingRepDetector)
    (sample : PositionSample) : List PositionSample :=
  (st.samples ++ [sample]).dropWhile fun s => decide (s.t < st.cutoff_time sample)

/-- The `new_reps` local of `add_sample`: reps of the re-run batch detection
whose `(start_time, end_time)` key has not been reported before. -/
def StreamingRepDetector.new_reps (st : StreamingRepDetector)
    (sample : PositionSample) : List DetectedRep :=
  ((RepDetector.mk st.movement_type st.min_confidence).detect_reps
    (st.buffer_after sample)).filter fun r =>
      decide ((r.start_time, r.end_time) ∉
        (st.detected_reps.map fun r => (r.start_time, r.end_time) : List (ℚ × ℚ)))

/-- `StreamingRepDetector.add_sample`: append, evict samples older than
`latest - buffer_seconds`, re-run the batch detector on the buffer, and
report (and log) only reps whose `(start_time, end_time)` key is unseen. -/
def StreamingRepDetector.add_sample (st : StreamingRepDetector)
    (sample : PositionSample) : StreamingRepDetector × List DetectedRep :=
  ({ st with
      samples := st.buffer_after sample
      detected_reps := st.detected_reps ++ st.new_reps sample
      last_processed_idx := st.last_processed_idx -
        ((st.samples ++ [sample]).takeWhile fun s =>
          decide (s.t < st.cutoff_time sample)).length },
    st.new_reps sample)

/-- `StreamingRepDetector.get_all_reps`. -/
def StreamingRepDetector.get_all_reps (st : StreamingRepDetector) : List DetectedRep :=
  st.detected_reps

/-- Feeding a sample sequence one at a time into `add_sample`, starting from a
fresh detector. -/
def StreamingRepDetector.feed (movement_type : MovementType)
    (buffer_seconds min_confidence : ℚ) (samples : List PositionSample) :
    StreamingRepDetector :=
  samples.foldl (fun st s => (st.add_sample s).1)
    (StreamingRepDetector.init movement_type buffer_seconds min_confidence)

/-- The `(start_time, end_time)` dedup keys of a rep list. -/
def repKeys (reps : List DetectedRep) : List (ℚ × ℚ) :=
  reps.map fun r => (r.start_time, r.end_time)

/-! ## Supporting lemmas for the rep segmentation engine -/

lemma RepDetector.smooth_signal_length (signal : List ℚ) (window : ℕ) :
    (RepDetector.smooth_signal signal window).length = signal.length := by
  unfold RepDetector.smooth_signal
  split
  · rfl
  · simp

/-- `detect_reps` either returns `[]` or the segmentation of the
confidence-filtered samples along the detected peaks. -/
lemma RepDetector.detect_reps_eq (d : RepDetector) (samples : List PositionSample) :
    d.detect_reps samples = [] ∨
    d.detect_reps samples =
      RepDetector.segment_reps d
        ((samples.filter fun s => decide (d.min_confidence ≤ s.confidence)).map (·.t))
        ((samples.filter fun s => decide (d.min_confidence ≤ s.confidence)).map (·.y))
        (RepDetector.find_peaks
          ((RepDetector.smooth_signal
            ((samples.filter fun s => decide (d.min_confidence ≤ s.confidence)).map (·.y))
            RepDetector.VELOCITY_SMOOTHING_WINDOW).map fun v => -v)
          RepDetector.MIN_SAMPLES_BETWEEN_PEAKS) := by
  unfold RepDetector.detect_reps RepDetector.detect_reps_filtered
  split_ifs <;> first | exact Or.inl rfl | exact Or.inr rfl

/-- Every rep produced by `_segment_reps` is the rep built for some pair of
peaks from the peak list. -/
lemma RepDetector.mem_segment_reps {d : RepDetector} {times y_raw : List ℚ} :
    ∀ {l : List ℕ} {r : DetectedRep}, r ∈ RepDetector.segment_reps d times y_raw l →
      ∃ p q, p ∈ l ∧ q ∈ l ∧ r = RepDetector.make_rep d times y_raw p q := by
  intro l
  induction l with
  | nil => intro r hr; simp [RepDetector.segment_reps] at hr
  | cons p1 tl ih =>
    cases tl with
    | nil => intro r hr; simp [RepDetector.segment_reps] at hr
    | cons p2 rest =>
      intro r hr
      rw [RepDetector.segment_reps] at hr
      split_ifs at hr with hskip
      · obtain ⟨p, q, hp, hq, hrr⟩ := ih hr
        exact ⟨p, q, List.mem_cons_of_mem _ hp, List.mem_cons_of_mem _ hq, hrr⟩
      · rcases List.mem_cons.mp hr with hrr | hrr
        · exact ⟨p1, p2, List.mem_cons_self .., List.mem_cons_of_mem _ (List.mem_cons_self ..), hrr⟩
        · obtain ⟨p, q, hp, hq, hrr⟩ := ih hrr
          exact ⟨p, q, List.mem_cons_of_mem _ hp, List.mem_cons_of_mem _ hq, hrr⟩

/-- The movement-type dispatch of `__init__` spelled out: 0.25 for snatches,
0.15 for swing/pendulum movements (including `two_arm_swing`). -/
lemma RepDetector.min_vertical_displacement_eq (d : RepDetector) :
    d.min_vertical_displacement =
      if d.movement_type = MovementType.snatch_left ∨
          d.movement_type = MovementType.snatch_right then (1/4 : ℚ) else 3/20 := by
  unfold RepDetector.min_vertical_displacement RepDetector.MIN_VERTICAL_DISPLACEMENT_SNATCH
    RepDetector.MIN_VERTICAL_DISPLACEMENT_SWING
  split_ifs <;> norm_num

/-- `_validate_rep` characterized as the conjunction of the three criteria. -/
lemma RepDetector.validate_rep_iff (d : RepDetector) (dur disp : ℚ) (yseg : List ℚ) :
    RepDetector.validate_rep d dur disp yseg = true ↔
      ((RepDetector.MIN_REP_DURATION ≤ dur ∧ dur ≤ RepDetector.MAX_REP_DURATION) ∧
       d.min_vertical_displacement ≤ disp ∧
       (yseg.length < 5 ∨
         signChangeCount
           (if 3 ≤ (diffList yseg).length
             then RepDetector.smooth_signal (diffList yseg) 3
             else diffList yseg) ≤ max 8 (yseg.length / 3))) := by
  unfold RepDetector.validate_rep
  by_cases h1 : dur < RepDetector.MIN_REP_DURATION ∨ RepDetector.MAX_REP_DURATION < dur
  · rw [if_pos h1]
    simp only [Bool.false_eq_true, false_iff]
    rintro ⟨⟨ha, hb⟩, -, -⟩
    rcases h1 with h | h <;> linarith
  · rw [if_neg h1]
    push_neg at h1
    by_cases h2 : disp < d.min_vertical_displacement
    · rw [if_pos h2]
      simp only [Bool.false_eq_true, false_iff]
      rintro ⟨-, hd, -⟩
      linarith
    · rw [if_neg h2]
      push_neg at h2
      by_cases h3 : yseg.length < 5
      · rw [if_pos h3]
        exact iff_of_true rfl ⟨⟨h1.1, h1.2⟩, h2, Or.inl h3⟩
      · rw [if_neg h3]
        rw [decide_eq_true_eq]
        constructor
        · intro h
          exact ⟨⟨h1.1, h1.2⟩, h2, Or.inr h⟩
        · rintro ⟨-, -, h | h⟩
          · omega
          · exact h

lemma RepDetector.find_peaks_step_nil (signal : List ℚ) (md i : ℕ) :
    RepDetector.find_peaks_step signal md [] i =
      if signal.getD (i - 1) 0 < signal.getD i 0 ∧
          signal.getD (i + 1) 0 < signal.getD i 0 then [i] else [] := rfl

lemma RepDetector.find_peaks_step_cons (signal : List ℚ) (md last i : ℕ)
    (rest : List ℕ) :
    RepDetector.find_peaks_step signal md (last :: rest) i =
      if signal.getD (i - 1) 0 < signal.getD i 0 ∧
          signal.getD (i + 1) 0 < signal.getD i 0 then
        (if md ≤ i - last then i :: last :: rest
         else if signal.getD last 0 < signal.getD i 0 then i :: rest
         else last :: rest)
      else last :: rest := rfl

/-- Everything `find_peaks_step` puts in the accumulator is either an old
element or the scanned index. -/
lemma RepDetector.find_peaks_step_cases (signal : List ℚ) (md : ℕ) (acc : List ℕ)
    (i : ℕ) : ∀ a ∈ RepDetector.find_peaks_step signal md acc i, a ∈ acc ∨ a = i := by
  intro a ha
  cases acc with
  | nil =>
    rw [RepDetector.find_peaks_step_nil] at ha
    split_ifs at ha
    · simp at ha
      exact Or.inr ha
    · simp at ha
  | cons last rest =>
    rw [RepDetector.find_peaks_step_cons] at ha
    split_ifs at ha with hcond hd hh
    · rcases List.mem_cons.mp ha with h | h
      · exact Or.inr h
      · exact Or.inl h
    · rcases List.mem_cons.mp ha with h | h
      · exact Or.inr h
      · exact Or.inl (List.mem_cons_of_mem _ h)
    · exact Or.inl ha
    · exact Or.inl ha

/-- The accumulator stays strictly decreasing as long as everything already in
it is below the indices still to be scanned. -/
lemma RepDetector.find_peaks_foldl_inv (signal : List ℚ) (md : ℕ) :
    ∀ l acc : List ℕ,
      l.Pairwise (· < ·) → (∀ a ∈ acc, ∀ j ∈ l, a < j) → acc.Chain' (· > ·) →
      (l.foldl (RepDetector.find_peaks_step signal md) acc).Chain' (· > ·) ∧
      ∀ a ∈ l.foldl (RepDetector.find_peaks_step signal md) acc, a ∈ acc ∨ a ∈ l := by
  intro l
  induction l with
  | nil => intro acc _ _ hchain; exact ⟨hchain, fun a ha => Or.inl ha⟩
  | cons i tl ih =>
    intro acc hpl hbound hchain
    have hlt : ∀ a ∈ acc, a < i := fun a ha => hbound a ha i (List.mem_cons_self ..)
    have hstep_mem := RepDetector.find_peaks_step_cases signal md acc i
    have hstep_bound : ∀ a ∈ RepDetector.find_peaks_step signal md acc i,
        ∀ j ∈ tl, a < j := by
      intro a ha j hj
      rcases hstep_mem a ha with h | h
      · exact hbound a h j (List.mem_cons_of_mem _ hj)
      · subst h
        exact (List.pairwise_cons.mp hpl).1 j hj
    have hstep_chain : (RepDetector.find_peaks_step signal md acc i).Chain' (· > ·) := by
      cases acc with
      | nil =>
        rw [RepDetector.find_peaks_step_nil]
        split_ifs <;> simp
      | cons last rest =>
        rw [RepDetector.find_peaks_step_cons]
        split_ifs with hcond hd hh
        · exact List.chain'_cons.mpr ⟨hlt last (List.mem_cons_self ..), hchain⟩
        · cases rest with
          | nil => simp
          | cons r2 rest2 =>
            exact List.chain'_cons.mpr
              ⟨hlt r2 (List.mem_cons_of_mem _ (List.mem_cons_self ..)),
               (List.chain'_cons.mp hchain).2⟩
        · exact hchain
        · exact hchain
    rw [List.foldl_cons]
    obtain ⟨hc, hm⟩ := ih _ (List.Pairwise.of_cons hpl) hstep_bound hstep_chain
    refine ⟨hc, fun a ha => ?_⟩
    rcases hm a ha with h | h
    · rcases hstep_mem a h with h' | h'
      · exact Or.inl h'
      · exact Or.inr (h' ▸ List.mem_cons_self ..)
    · exact Or.inr (List.mem_cons_of_mem _ h)

/-- `_find_peaks` returns strictly increasing indices. -/
lemma RepDetector.find_peaks_sorted (signal : List ℚ) (md : ℕ) :
    (RepDetector.find_peaks signal md).Pairwise (· < ·) := by
  unfold RepDetector.find_peaks
  obtain ⟨hc, -⟩ := RepDetector.find_peaks_foldl_inv signal md
    (List.range' 1 (signal.length - 2)) [] (List.pairwise_lt_range' ..)
    (by simp) List.chain'_nil
  rw [← List.chain'_iff_pairwise]
  exact List.chain'_reverse.mpr hc

/-- `_find_peaks` only returns indices in `[1, len-2]`. -/
lemma RepDetector.find_peaks_mem_bound (signal : List ℚ) (md : ℕ) :
    ∀ p ∈ RepDetector.find_peaks signal md, 1 ≤ p ∧ p + 2 ≤ signal.length := by
  intro p hp
  unfold RepDetector.find_peaks at hp
  rw [List.mem_reverse] at hp
  obtain ⟨-, hm⟩ := RepDetector.find_peaks_foldl_inv signal md
    (List.range' 1 (signal.length - 2)) [] (List.pairwise_lt_range' ..)
    (by simp) List.chain'_nil
  rcases hm p hp with h | h
  · simp at h
  · rw [List.mem_range'_1] at h
    omega

lemma getD_lt_getD_of_pairwise {times : List ℚ} (h : times.Pairwise (· < ·))
    {i j : ℕ} (hij : i < j) (hj : j < times.length) :
    times.getD i 0 < times.getD j 0 := by
  rw [List.getD_eq_getElem _ _ (hij.trans hj), List.getD_eq_getElem _ _ hj]
  exact List.pairwise_iff_getElem.mp h i j _ _ hij

/-- Structural soundness of `_segment_reps` along a strictly increasing,
in-bounds peak list over strictly increasing times: per-rep invariants,
strictly increasing `start_idx`, peak-to-peak adjacency, and non-overlapping
time spans. -/
lemma RepDetector.segment_reps_sound (d : RepDetector) (times y_raw : List ℚ)
    (htimes : times.Pairwise (· < ·)) (hlen : y_raw.length = times.length) :
    ∀ l : List ℕ, l.Pairwise (· < ·) → (∀ p ∈ l, p + 2 ≤ times.length) →
      (∀ r ∈ RepDetector.segment_reps d times y_raw l,
        r.start_idx < r.end_idx ∧ r.start_time < r.end_time ∧
        r.duration = r.end_time - r.start_time) ∧
      (RepDetector.segment_reps d times y_raw l).Pairwise
        (fun a b => a.start_idx < b.start_idx) ∧
      (RepDetector.segment_reps d times y_raw l).Chain'
        (fun a b => a.end_idx = b.start_idx) ∧
      (RepDetector.segment_reps d times y_raw l).Pairwise
        (fun a b => a.end_time ≤ b.start_time) := by
  intro l
  induction l with
  | nil =>
    intro _ _
    rw [show RepDetector.segment_reps d times y_raw [] = [] from rfl]
    exact ⟨fun r hr => absurd hr (List.not_mem_nil r), .nil, List.chain'_nil, .nil⟩
  | cons p1 tl ih =>
    cases tl with
    | nil =>
      intro _ _
      rw [show RepDetector.segment_reps d times y_raw [p1] = [] from rfl]
      exact ⟨fun r hr => absurd hr (List.not_mem_nil r), .nil, List.chain'_nil, .nil⟩
    | cons p2 rest =>
      intro hpw hbound
      have h12 : p1 < p2 := (List.pairwise_cons.mp hpw).1 p2 (List.mem_cons_self ..)
      have hb2 : p2 + 2 ≤ times.length :=
        hbound p2 (List.mem_cons_of_mem _ (List.mem_cons_self ..))
      have hbound' : ∀ p ∈ p2 :: rest, p + 2 ≤ times.length :=
        fun p hp => hbound p (List.mem_cons_of_mem _ hp)
      have hpw' := List.Pairwise.of_cons hpw
      have hguard : ¬ (((y_raw.drop p1).take (p2 + 1 - p1)).length < 2) := by
        rw [List.length_take, List.length_drop]
        omega
      have hunfold : RepDetector.segment_reps d times y_raw (p1 :: p2 :: rest) =
          RepDetector.make_rep d times y_raw p1 p2 ::
            RepDetector.segment_reps d times y_raw (p2 :: rest) := by
        rw [RepDetector.segment_reps, if_neg hguard]
      obtain ⟨ihP, ihPW, ihCh, ihT⟩ := ih hpw' hbound'
      have htlt : times.getD p1 0 < times.getD p2 0 :=
        getD_lt_getD_of_pairwise htimes h12 (by omega)
      rw [hunfold]
      refine ⟨?_, ?_, ?_, ?_⟩
      · intro r hr
        rcases List.mem_cons.mp hr with rfl | hr
        · exact ⟨h12, htlt, rfl⟩
        · exact ihP r hr
      · rw [List.pairwise_cons]
        refine ⟨fun b hb => ?_, ihPW⟩
        obtain ⟨p, q, hp, hq, rfl⟩ := RepDetector.mem_segment_reps hb
        exact (List.pairwise_cons.mp hpw).1 p hp
      · cases rest with
        | nil =>
          rw [show RepDetector.segment_reps d times y_raw [p2] = [] from rfl]
          simp
        | cons p3 rest2 =>
          have hguard2 : ¬ (((y_raw.drop p2).take (p3 + 1 - p2)).length < 2) := by
            have h23 : p2 < p3 :=
              (List.pairwise_cons.mp hpw').1 p3 (List.mem_cons_self ..)
            rw [List.length_take, List.length_drop]
            omega
          have hunfold2 : RepDetector.segment_reps d times y_raw (p2 :: p3 :: rest2) =
              RepDetector.make_rep d times y_raw p2 p3 ::
                RepDetector.segment_reps d times y_raw (p3 :: rest2) := by
            rw [RepDetector.segment_reps, if_neg hguard2]
          rw [hunfold2, List.chain'_cons]
          refine ⟨rfl, ?_⟩
          rw [← hunfold2]
          exact ihCh
      · rw [List.pairwise_cons]
        refine ⟨fun b hb => ?_, ihT⟩
        obtain ⟨p, q, hp, hq, rfl⟩ := RepDetector.mem_segment_reps hb
        show times.getD p2 0 ≤ times.getD p 0
        rcases List.mem_cons.mp hp with rfl | hp'
        · exact le_refl _
        · have h2p : p2 < p := (List.pairwise_cons.mp hpw').1 p hp'
          have hplen : p < times.length := by
            have := hbound' p (List.mem_cons_of_mem _ hp')
            omega
          exact le_of_lt (getD_lt_getD_of_pairwise htimes h2p hplen)

/-- C6: for samples with strictly increasing timestamps, every detected rep
has `start_idx < end_idx`, `start_time < end_time` and
`duration = end_time - start_time`; across the output, `start_idx` is strictly
increasing, consecutive reps share their boundary peak
(`end_idx = next.start_idx`), and time spans overlap at most at endpoints. -/
theorem claim_C6 (d : RepDetector) (samples : List PositionSample)
    (ht : samples.Pairwise fun a b => a.t < b.t) :
    (∀ r ∈ d.detect_reps samples,
      r.start_idx < r.end_idx ∧ r.start_time < r.end_time ∧
      r.duration = r.end_time - r.start_time) ∧
    (d.detect_reps samples).Pairwise (fun a b => a.start_idx < b.start_idx) ∧
    (d.detect_reps samples).Chain' (fun a b => a.end_idx = b.start_idx) ∧
    (d.detect_reps samples).Pairwise (fun a b => a.end_time ≤ b.start_time) := by
  rcases RepDetector.detect_reps_eq d samples with hcase | hcase <;> rw [hcase]
  · exact ⟨fun r hr => absurd hr (List.not_mem_nil r), .nil, List.chain'_nil, .nil⟩
  · have htimes : (((samples.filter fun s =>
        decide (d.min_confidence ≤ s.confidence)).map (·.t)).Pairwise (· < ·)) :=
      List.pairwise_map.mpr (List.Pairwise.sublist (List.filter_sublist _) ht)
    have hlen : ((samples.filter fun s =>
        decide (d.min_confidence ≤ s.confidence)).map (·.y)).length =
        ((samples.filter fun s =>
          decide (d.min_confidence ≤ s.confidence)).map (·.t)).length := by
      simp
    have hsiglen : ∀ p ∈ RepDetector.find_peaks
        ((RepDetector.smooth_signal
          ((samples.filter fun s => decide (d.min_confidence ≤ s.confidence)).map (·.y))
          RepDetector.VELOCITY_SMOOTHING_WINDOW).map fun v => -v)
        RepDetector.MIN_SAMPLES_BETWEEN_PEAKS,
        p + 2 ≤ ((samples.filter fun s =>
          decide (d.min_confidence ≤ s.confidence)).map (·.t)).length := by
      intro p hp
      have := (RepDetector.find_peaks_mem_bound _ _ p hp).2
      rwa [List.length_map, RepDetector.smooth_signal_length, List.length_map,
        ← List.length_map _ (·.t)] at this
    exact RepDetector.segment_reps_sound d _ _ htimes hlen _
      (RepDetector.find_peaks_sorted _ _) hsiglen

lemma filter_getD_prop {α : Type} (p : α → Bool) (l : List α) (i : ℕ) (d₀ : α)
    (h : i < (l.filter p).length) : p ((l.filter p).getD i d₀) = true := by
  rw [List.getD_eq_getElem _ _ h]
  exact (List.mem_filter.mp (List.getElem_mem h)).2

/-- C3: a detected rep is valid iff all three criteria hold: duration in
`[0.4, 4.0]`; vertical displacement at least the movement-specific minimum
(`0.25` for snatch movements, `0.15` for swing/pendulum movements including
`two_arm_swing`); and the arc-smoothness check passes — vacuously when the
span has fewer than 5 samples, otherwise the sign-change count of the
(3-sample-smoothed when at least 3 points) first difference of the raw
vertical signal does not exceed `max 8 (span_length / 3)`. -/
theorem claim_C3 (d : RepDetector) (samples : List PositionSample) (r : DetectedRep)
    (hr : r ∈ d.detect_reps samples) :
    (let yseg := (((samples.filter fun s =>
        decide (d.min_confidence ≤ s.confidence)).map (·.y)).drop r.start_idx).take
        (r.end_idx + 1 - r.start_idx)
     (r.is_valid = true ↔
       ((2/5 ≤ r.duration ∧ r.duration ≤ 4) ∧
        (if d.movement_type = MovementType.snatch_left ∨
            d.movement_type = MovementType.snatch_right then (1/4 : ℚ) else 3/20) ≤
          r.vertical_displacement ∧
        (yseg.length < 5 ∨
          signChangeCount
            (if 3 ≤ (diffList yseg).length
              then RepDetector.smooth_signal (diffList yseg) 3
              else diffList yseg) ≤ max 8 (yseg.length / 3))))) := by
  rcases RepDetector.detect_reps_eq d samples with hcase | hcase
  · rw [hcase] at hr
    exact absurd hr (List.not_mem_nil r)
  · rw [hcase] at hr
    obtain ⟨p, q, hp, hq, rfl⟩ := RepDetector.mem_segment_reps hr
    simp only [RepDetector.make_rep]
    rw [RepDetector.validate_rep_iff, RepDetector.min_vertical_displacement_eq]
    norm_num [RepDetector.MIN_REP_DURATION, RepDetector.MAX_REP_DURATION]

set_option maxHeartbeats 1000000 in
/-- C7: low-confidence samples never influence the output — `detect_reps` on
the raw input equals `detect_reps` on the pre-filtered input, and every index
in any rep's `[start_idx, end_idx]` range addresses a sample of the filtered
array, whose confidence is at least `min_confidence`. -/
theorem claim_C7 (d : RepDetector) (samples : List PositionSample) :
    d.detect_reps samples =
      d.detect_reps (samples.filter fun s => decide (d.min_confidence ≤ s.confidence)) ∧
    ∀ r ∈ d.detect_reps samples, ∀ i, r.start_idx ≤ i → i ≤ r.end_idx →
      d.min_confidence ≤
        ((samples.filter fun s => decide (d.min_confidence ≤ s.confidence)).getD i
          default).confidence := by
  constructor
  · have hFF : ((samples.filter fun s => decide (d.min_confidence ≤ s.confidence)).filter
        fun s => decide (d.min_confidence ≤ s.confidence)) =
        samples.filter fun s => decide (d.min_confidence ≤ s.confidence) := by
      rw [List.filter_filter]
      congr 1
      funext a
      rw [Bool.and_self]
    unfold RepDetector.detect_reps
    by_cases hF : (samples.filter fun s =>
        decide (d.min_confidence ≤ s.confidence)).length <
        RepDetector.MIN_SAMPLES_BETWEEN_PEAKS * 2
    · rw [if_pos hF]
      by_cases hS : samples.length < RepDetector.MIN_SAMPLES_BETWEEN_PEAKS * 2
      · rw [if_pos hS]
      · rw [if_neg hS]
        unfold RepDetector.detect_reps_filtered
        rw [if_pos hF]
    · have hS : ¬ samples.length < RepDetector.MIN_SAMPLES_BETWEEN_PEAKS * 2 :=
        fun hcon => hF (lt_of_le_of_lt (List.length_filter_le _ _) hcon)
      rw [if_neg hS, if_neg hF, hFF]
  · intro r hr i hi1 hi2
    rcases RepDetector.detect_reps_eq d samples with hcase | hcase
    · rw [hcase] at hr
      exact absurd hr (List.not_mem_nil r)
    · rw [hcase] at hr
      obtain ⟨p, q, hp, hq, rfl⟩ := RepDetector.mem_segment_reps hr
      have hqb := (RepDetector.find_peaks_mem_bound _ _ q hq).2
      rw [List.length_map, RepDetector.smooth_signal_length, List.length_map] at hqb
      have hq' : i ≤ q := hi2
      have hilt : i < (samples.filter fun s =>
          decide (d.min_confidence ≤ s.confidence)).length := by omega
      exact of_decide_eq_true (filter_getD_prop
        (fun s => decide (d.min_confidence ≤ s.confidence)) samples i default hilt)

/-- C9: in the embedding both `detect_reps` and `calculate` are pure
functions of their inputs plus configuration (the source touches no global
state), so repeated invocation yields identical results and neither call
affects the other. -/
theorem claim_C9 (d : RepDetector) (c : ANTCalculator) (samples : List PositionSample)
    (reps : List DetectedRep) :
    d.detect_reps samples = d.detect_reps samples ∧
    ANTCalculator.calculate c reps = ANTCalculator.calculate c reps :=
  ⟨rfl, rfl⟩

/-! ## Concrete sample sequences for witnesses and the C4 counterexample -/

lemma abs_q_ite (q : ℚ) : |q| = if q < 0 then -q else q := by
  rcases lt_or_ge q 0 with h | h
  · rw [if_pos h, abs_of_neg h]
  · rw [if_neg (not_lt.mpr h), abs_of_nonneg h]

/-- A full-confidence sample at `t = i/5`. -/
def mkW (i : ℕ) (y : ℚ) : PositionSample := ⟨(i : ℚ)/5, 0, y, 1⟩

/-- A triangle-wave signal at 5 Hz: dips at indices 2, 6 and 10. -/
def samples13 : List PositionSample :=
  [mkW 0 (8/10), mkW 1 (5/10), mkW 2 (2/10), mkW 3 (5/10), mkW 4 (8/10),
   mkW 5 (5/10), mkW 6 (2/10), mkW 7 (5/10), mkW 8 (8/10), mkW 9 (5/10),
   mkW 10 (2/10), mkW 11 (5/10), mkW 12 (8/10)]

/-- A two-arm-swing detector with the default confidence threshold. -/
def rd13 : RepDetector := ⟨MovementType.two_arm_swing, 1/2⟩

/-- The single rep detected on `samples13`. -/
def rep13 : DetectedRep := ⟨2, 10, 2/5, 2, 8/5, 3/2, 3/5, true⟩

set_option maxHeartbeats 4000000 in
lemma detect13 : rd13.detect_reps samples13 = [rep13] := by
  norm_num [RepDetector.detect_reps, RepDetector.detect_reps_filtered,
    RepDetector.segment_reps, RepDetector.make_rep, RepDetector.find_peaks,
    RepDetector.find_peaks_step, RepDetector.smooth_signal,
    RepDetector.calculate_peak_speed, RepDetector.validate_rep,
    RepDetector.min_vertical_displacement, RepDetector.MIN_VERTICAL_DISPLACEMENT_SWING,
    RepDetector.MIN_VERTICAL_DISPLACEMENT_SNATCH, RepDetector.MIN_REP_DURATION,
    RepDetector.MAX_REP_DURATION, RepDetector.VELOCITY_SMOOTHING_WINDOW,
    RepDetector.MIN_SAMPLES_BETWEEN_PEAKS, listMean, listMax, listMin, diffList,
    signQ, signChangeCount, List.filter, List.range', List.foldl, rd13, samples13,
    mkW, rep13, List.range_succ, abs_q_ite]
  simp
  norm_num

/-- C3 witness: the rep detected on the triangle wave is valid (via the
criteria characterization, instantiated at `rd13`, `samples13`, `rep13`). -/
theorem claim_C3_witness : rep13.is_valid = true := by
  have h := claim_C3 rd13 samples13 rep13
    (by rw [detect13]; exact List.mem_singleton.mpr rfl)
  refine h.mpr ⟨⟨by norm_num [rep13], by norm_num [rep13]⟩, ?_, Or.inr ?_⟩
  · simp only [rd13]
    rw [if_neg (by decide)]
    norm_num [rep13]
  · norm_num [rep13, rd13, samples13, mkW, List.filter, diffList, signQ,
      signChangeCount, RepDetector.smooth_signal, listMean, List.range_succ,
      Function.comp]

/-- C6 witness: the ordering invariants instantiated on the triangle wave. -/
theorem claim_C6_witness :
    (∀ r ∈ rd13.detect_reps samples13,
      r.start_idx < r.end_idx ∧ r.start_time < r.end_time ∧
      r.duration = r.end_time - r.start_time) ∧
    (rd13.detect_reps samples13).Pairwise (fun a b => a.start_idx < b.start_idx) ∧
    (rd13.detect_reps samples13).Chain' (fun a b => a.end_idx = b.start_idx) ∧
    (rd13.detect_reps samples13).Pairwise (fun a b => a.end_time ≤ b.start_time) :=
  claim_C6 rd13 samples13 (by norm_num [samples13, mkW, List.pairwise_cons])

/-- C7 witness: on the triangle wave, index 2 of the detected rep's range
addresses a sample of confidence at least `min_confidence`. -/
theorem claim_C7_witness :
    rd13.min_confidence ≤
      ((samples13.filter fun s => decide (rd13.min_confidence ≤ s.confidence)).getD 2
        default).confidence :=
  (claim_C7 rd13 samples13).2 rep13
    (by rw [detect13]; exact List.mem_singleton.mpr rfl) 2 (by decide) (by decide)

/-! ## Streaming/batch comparison (C4) -/

lemma dropWhile_eq_self_of_false {α : Type} (p : α → Bool) (l : List α)
    (h : ∀ x ∈ l, p x = false) : l.dropWhile p = l := by
  cases l with
  | nil => rfl
  | cons a l => simp [List.dropWhile_cons, h a (List.mem_cons_self ..)]

lemma repKeys_append (a b : List DetectedRep) :
    repKeys (a ++ b) = repKeys a ++ repKeys b := List.map_append ..

/-- When nothing is older than the cutoff, eviction keeps the whole buffer. -/
lemma StreamingRepDetector.buffer_after_no_evict (st : StreamingRepDetector)
    (s : PositionSample)
    (h : ∀ x ∈ st.samples ++ [s], s.t - st.buffer_seconds ≤ x.t) :
    st.buffer_after s = st.samples ++ [s] := by
  unfold StreamingRepDetector.buffer_after StreamingRepDetector.cutoff_time
  apply dropWhile_eq_self_of_false
  intro x hx
  have hlast : ((st.samples ++ [s]).getLastD default) = s := by simp
  rw [hlast]
  exact decide_eq_false (not_lt.mpr (h x hx))

/-- Feeding samples with a large enough buffer accumulates them all, and the
configuration fields never change. -/
lemma StreamingRepDetector.foldl_no_evict (l : List PositionSample) :
    ∀ st : StreamingRepDetector,
      (∀ a ∈ st.samples ++ l, ∀ b ∈ st.samples ++ l, b.t - st.buffer_seconds ≤ a.t) →
      (l.foldl (fun st s => (st.add_sample s).1) st).samples = st.samples ++ l ∧
      (l.foldl (fun st s => (st.add_sample s).1) st).buffer_seconds = st.buffer_seconds ∧
      (l.foldl (fun st s => (st.add_sample s).1) st).movement_type = st.movement_type ∧
      (l.foldl (fun st s => (st.add_sample s).1) st).min_confidence = st.min_confidence := by
  induction l with
  | nil => intro st _; simp
  | cons s l2 ih =>
    intro st h
    rw [List.foldl_cons]
    have hmemsub : ∀ x ∈ st.samples ++ [s], x ∈ st.samples ++ s :: l2 := by
      intro x hx
      rcases List.mem_append.mp hx with h' | h'
      · exact List.mem_append_left _ h'
      · rw [List.mem_singleton.mp h']
        exact List.mem_append_right _ (List.mem_cons_self ..)
    have hbuf : (st.add_sample s).1.samples = st.samples ++ [s] := by
      show st.buffer_after s = _
      apply StreamingRepDetector.buffer_after_no_evict
      intro x hx
      exact h x (hmemsub x hx) s
        (List.mem_append_right _ (List.mem_cons_self ..))
    have hbs : (st.add_sample s).1.buffer_seconds = st.buffer_seconds := rfl
    have hmt : (st.add_sample s).1.movement_type = st.movement_type := rfl
    have hmc : (st.add_sample s).1.min_confidence = st.min_confidence := rfl
    obtain ⟨IH1, IH2, IH3, IH4⟩ := ih ((st.add_sample s).1) (by
      rw [hbuf, hbs, List.append_assoc, List.singleton_append]
      exact h)
    refine ⟨?_, ?_, ?_, ?_⟩
    · rw [IH1, hbuf, List.append_assoc, List.singleton_append]
    · rw [IH2, hbs]
    · rw [IH3, hmt]
    · rw [IH4, hmc]

/-- The cumulative rep log only ever grows along a feed. -/
lemma StreamingRepDetector.foldl_detected_mono (l : List PositionSample) :
    ∀ st : StreamingRepDetector, ∃ tail,
      (l.foldl (fun st s => (st.add_sample s).1) st).detected_reps =
        st.detected_reps ++ tail := by
  induction l with
  | nil => intro st; exact ⟨[], by simp⟩
  | cons s l2 ih =>
    intro st
    rw [List.foldl_cons]
    obtain ⟨tail, htail⟩ := ih ((st.add_sample s).1)
    refine ⟨st.new_reps s ++ tail, ?_⟩
    rw [htail]
    show (st.detected_reps ++ st.new_reps s) ++ tail = _
    rw [List.append_assoc]

/-- With no eviction, after the final `add_sample` every rep of the batch run
over the whole sequence has its key in the cumulative log: the last call
re-runs `detect_reps` on the full buffer and logs every unseen key. -/
lemma StreamingRepDetector.batch_keys_subset_feed (mt : MovementType) (bs mc : ℚ)
    (samples : List PositionSample)
    (hbuf : ∀ a ∈ samples, ∀ b ∈ samples, b.t - bs ≤ a.t) :
    ∀ r ∈ (RepDetector.mk mt mc).detect_reps samples,
      (r.start_time, r.end_time) ∈
        repKeys (StreamingRepDetector.feed mt bs mc samples).detected_reps := by
  rcases List.eq_nil_or_concat samples with rfl | ⟨l, s, rfl⟩
  · intro r hr
    rw [show (RepDetector.mk mt mc).detect_reps [] = [] from rfl] at hr
    exact absurd hr (List.not_mem_nil r)
  · intro r hr
    rw [List.concat_eq_append] at hbuf hr ⊢
    unfold StreamingRepDetector.feed
    rw [List.foldl_append, List.foldl_cons, List.foldl_nil]
    obtain ⟨hsamp, hbs, hmt, hmc⟩ := StreamingRepDetector.foldl_no_evict l
      (StreamingRepDetector.init mt bs mc) (by
        show ∀ a ∈ [] ++ l, ∀ b ∈ [] ++ l, b.t - bs ≤ a.t
        rw [List.nil_append]
        intro a ha b hb
        exact hbuf a (List.mem_append_left _ ha) b (List.mem_append_left _ hb))
    set A := l.foldl (fun st s => (st.add_sample s).1)
      (StreamingRepDetector.init mt bs mc) with hA
    have hAsamp : A.samples = l := by rw [hsamp]; rfl
    have hbufeq : A.buffer_after s = l ++ [s] := by
      rw [StreamingRepDetector.buffer_after_no_evict A s (by
        rw [hAsamp, hbs]
        intro x hx
        exact hbuf x hx s (List.mem_append_right _ (List.mem_cons_self ..)))]
      rw [hAsamp]
    have hnew : A.new_reps s = ((RepDetector.mk mt mc).detect_reps (l ++ [s])).filter
        fun r => decide ((r.start_time, r.end_time) ∉
          (A.detected_reps.map fun r => (r.start_time, r.end_time) : List (ℚ × ℚ))) := by
      show ((RepDetector.mk A.movement_type A.min_confidence).detect_reps
        (A.buffer_after s)).filter _ = _
      rw [hmt, hmc, hbufeq]
      rfl
    have hdet : (A.add_sample s).1.detected_reps = A.detected_reps ++ A.new_reps s := rfl
    rw [hdet, repKeys_append]
    by_cases hk : (r.start_time, r.end_time) ∈
        (A.detected_reps.map fun r => (r.start_time, r.end_time) : List (ℚ × ℚ))
    · exact List.mem_append_left _ hk
    · refine List.mem_append_right _ ?_
      have hrf : r ∈ A.new_reps s := by
        rw [hnew]
        exact List.mem_filter.mpr ⟨hr, decide_eq_true hk⟩
      exact List.mem_map.mpr ⟨r, hrf, rfl⟩

/-- A full-confidence sample at `t = i/10`. -/
def mkT (i : ℕ) (y : ℚ) : PositionSample := ⟨(i : ℚ)/10, 0, y, 1⟩

/-- A signal whose second dip (index 8) is later replaced as a peak by the
deeper dip at index 12 (within `MIN_SAMPLES_BETWEEN_PEAKS`), so early prefixes
report a rep the final batch run does not contain. -/
def c4Samples : List PositionSample :=
  [mkT 0 (8/10), mkT 1 (5/10), mkT 2 (2/10), mkT 3 (5/10), mkT 4 (8/10),
   mkT 5 (9/10), mkT 6 (8/10), mkT 7 (6/10), mkT 8 (4/10), mkT 9 (6/10),
   mkT 10 (8/10), mkT 11 (6/10), mkT 12 (2/10), mkT 13 (6/10), mkT 14 (8/10)]

/-- The rep detected on the first 11 samples of `c4Samples`. -/
def rep11 : DetectedRep := ⟨2, 8, 1/5, 4/5, 3/5, 3, 7/10, true⟩

/-- The single rep detected on the whole of `c4Samples`. -/
def rep15 : DetectedRep := ⟨2, 12, 1/5, 6/5, 1, 10/3, 7/10, true⟩

set_option maxHeartbeats 4000000 in
lemma detect_c4_take11 :
    (RepDetector.mk MovementType.two_arm_swing (1/2)).detect_reps
      (c4Samples.take 11) = [rep11] := by
  norm_num [RepDetector.detect_reps, RepDetector.detect_reps_filtered,
    RepDetector.segment_reps, RepDetector.make_rep, RepDetector.find_peaks,
    RepDetector.find_peaks_step, RepDetector.smooth_signal,
    RepDetector.calculate_peak_speed, RepDetector.validate_rep,
    RepDetector.min_vertical_displacement, RepDetector.MIN_VERTICAL_DISPLACEMENT_SWING,
    RepDetector.MIN_VERTICAL_DISPLACEMENT_SNATCH, RepDetector.MIN_REP_DURATION,
    RepDetector.MAX_REP_DURATION, RepDetector.VELOCITY_SMOOTHING_WINDOW,
    RepDetector.MIN_SAMPLES_BETWEEN_PEAKS, listMean, listMax, listMin, diffList,
    signQ, signChangeCount, List.filter, List.range', List.foldl, c4Samples,
    mkT, rep11, List.range_succ, abs_q_ite, List.take_succ_cons]
  simp
  norm_num

set_option maxHeartbeats 4000000 in
lemma detect_c4_full :
    (RepDetector.mk MovementType.two_arm_swing (1/2)).detect_reps c4Samples =
      [rep15] := by
  norm_num [RepDetector.detect_reps, RepDetector.detect_reps_filtered,
    RepDetector.segment_reps, RepDetector.make_rep, RepDetector.find_peaks,
    RepDetector.find_peaks_step, RepDetector.smooth_signal,
    RepDetector.calculate_peak_speed, RepDetector.validate_rep,
    RepDetector.min_vertical_displacement, RepDetector.MIN_VERTICAL_DISPLACEMENT_SWING,
    RepDetector.MIN_VERTICAL_DISPLACEMENT_SNATCH, RepDetector.MIN_REP_DURATION,
    RepDetector.MAX_REP_DURATION, RepDetector.VELOCITY_SMOOTHING_WINDOW,
    RepDetector.MIN_SAMPLES_BETWEEN_PEAKS, listMean, listMax, listMin, diffList,
    signQ, signChangeCount, List.filter, List.range', List.foldl, c4Samples,
    mkT, rep15, List.range_succ, abs_q_ite]
  simp
  norm_num

/-- C4 (amended): when `buffer_seconds` is large enough that no sample is ever
evicted, the streaming detector's final cumulative rep set is a SUPERSET of
the batch result keyed by `(start_time, end_time)` — the final `add_sample`
re-runs the batch detection over the full buffer and logs every unseen key.
Equality fails in general (see the counterexample): earlier prefixes can log
reps that the final batch run no longer contains. -/
theorem claim_C4 (mt : MovementType) (bs mc : ℚ) (samples : List PositionSample)
    (hbuf : ∀ a ∈ samples, ∀ b ∈ samples, b.t - bs ≤ a.t) :
    ∀ r ∈ (RepDetector.mk mt mc).detect_reps samples,
      (r.start_time, r.end_time) ∈
        repKeys (StreamingRepDetector.feed mt bs mc samples).detected_reps :=
  StreamingRepDetector.batch_keys_subset_feed mt bs mc samples hbuf

/-- C4 witness: the batch rep on `c4Samples` has its key in the streaming log. -/
theorem claim_C4_witness :
    (rep15.start_time, rep15.end_time) ∈
      repKeys (StreamingRepDetector.feed MovementType.two_arm_swing 1000 (1/2)
        c4Samples).detected_reps := by
  have hbound : ∀ a ∈ c4Samples, 0 ≤ a.t ∧ a.t ≤ 14/10 := by
    intro a ha
    fin_cases ha <;> norm_num [mkT]
  exact claim_C4 MovementType.two_arm_swing 1000 (1/2) c4Samples
    (fun a ha b hb => by
      have h1 := (hbound a ha).1
      have h2 := (hbound b hb).2
      linarith)
    rep15 (by rw [detect_c4_full]; exact List.mem_singleton.mpr rfl)

/-- C4 counterexample: on `c4Samples` (with a buffer that never evicts), the
streaming log contains the stale key `(1/5, 4/5)` — reported from the 11-sample
prefix, whose closing peak (index 8) is later replaced by the higher peak at
index 12 — while the batch run contains only `(1/5, 6/5)`; so the final
cumulative rep set does not equal the batch rep set. -/
theorem claim_C4_counterexample :
    (∀ a ∈ c4Samples, ∀ b ∈ c4Samples, b.t - (1000 : ℚ) ≤ a.t) ∧
    ¬ (∀ k : ℚ × ℚ,
        k ∈ repKeys (StreamingRepDetector.feed MovementType.two_arm_swing 1000 (1/2)
          c4Samples).detected_reps ↔
        k ∈ repKeys ((RepDetector.mk MovementType.two_arm_swing (1/2)).detect_reps
          c4Samples)) := by
  have hbound : ∀ a ∈ c4Samples, 0 ≤ a.t ∧ a.t ≤ 14/10 := by
    intro a ha
    fin_cases ha <;> norm_num [mkT]
  have hbuf : ∀ a ∈ c4Samples, ∀ b ∈ c4Samples, b.t - (1000 : ℚ) ≤ a.t := by
    intro a ha b hb
    have h1 := (hbound a ha).1
    have h2 := (hbound b hb).2
    linarith
  refine ⟨hbuf, fun hiff => ?_⟩
  have hstream : ((1:ℚ)/5, (4:ℚ)/5) ∈
      repKeys (StreamingRepDetector.feed MovementType.two_arm_swing 1000 (1/2)
        c4Samples).detected_reps := by
    have hkey : ((1:ℚ)/5, (4:ℚ)/5) = (rep11.start_time, rep11.end_time) := by
      norm_num [rep11]
    rw [hkey]
    have hpref := StreamingRepDetector.batch_keys_subset_feed
      MovementType.two_arm_swing 1000 (1/2) (c4Samples.take 11)
      (fun a ha b hb => by
        have h1 := (hbound a (List.mem_of_mem_take ha)).1
        have h2 := (hbound b (List.mem_of_mem_take hb)).2
        linarith)
      rep11 (by rw [detect_c4_take11]; exact List.mem_singleton.mpr rfl)
    have hsplit :
        StreamingRepDetector.feed MovementType.two_arm_swing 1000 (1/2) c4Samples =
        (c4Samples.drop 11).foldl (fun st s => (st.add_sample s).1)
          (StreamingRepDetector.feed MovementType.two_arm_swing 1000 (1/2)
            (c4Samples.take 11)) := by
      unfold StreamingRepDetector.feed
      rw [← List.foldl_append, List.take_append_drop]
    rw [hsplit]
    obtain ⟨tail, htail⟩ := StreamingRepDetector.foldl_detected_mono
      (c4Samples.drop 11)
      (StreamingRepDetector.feed MovementType.two_arm_swing 1000 (1/2)
        (c4Samples.take 11))
    rw [htail, repKeys_append]
    exact List.mem_append_left _ hpref
  have hbatch : ((1:ℚ)/5, (4:ℚ)/5) ∉
      repKeys ((RepDetector.mk MovementType.two_arm_swing (1/2)).detect_reps
        c4Samples) := by
    rw [detect_c4_full]
    intro hmem
    simp only [repKeys, List.map_cons, List.map_nil, List.mem_singleton,
      Prod.mk.injEq, rep15] at hmem
    have := hmem.2
    norm_num at this
  exact hbatch ((hiff _).mp hstream)
